import Mathlib

/-
Verification of the FqTools parallel record-processing engine.

This file gives a shallow embedding, in Lean 4, of the record-level and
accumulator-level operations of the FqTools repository:

  * the statistics accumulator and its merge operator
    (src/src/statistics/fq_statistic.cpp, src/src/statistics/fq_statistic_worker.cpp),
  * the per-batch processing loops of the two pipelines
    (src/src/Processing/ProcessingPipeline.cpp,
     src/src/processing/tbb_processing_pipeline.cpp),
  * the batch object pool (src/src/memory/batch_memory_manager.cpp),
  * configuration validation (TbbProcessingPipeline::validate_config),
  * the rate getters of ProcessingStatistics
    (src/src/pipeline/processing/processing_pipeline.h),
  * the quality trimmer mutator (src/src/processing/mutators/quality_trimmer.cpp),
  * the minimum-quality predicate
    (src/src/processing/predicates/min_quality_predicate.cpp).

Byte strings (std::string) are modelled as lists of byte values (List Nat);
machine counters (uint64_t / size_t) as Nat; C++ double quantities that only
ever hold exactly-representable small values (phred scores, thresholds and
their comparisons) as rationals.  Concurrency is modelled by the sequential
interleavings the claims speak about: the per-batch loops are pure functions
of the batch, and the serial aggregation stages are folds over the list of
per-batch results in arrival order.
-/

--==============================================================================
-- Record model (struct FqInfo, core_legacy/core.h)
--==============================================================================

/-- One FASTQ record, `struct FqInfo` from `core_legacy/core.h`: read name,
base sequence and quality string, each a byte string modelled as `List Nat`. -/
structure FqInfo where
  name : List Nat
  base : List Nat
  qual : List Nat
  deriving DecidableEq

/-- `fq::fastq::MAX_QUAL` from `core_legacy/core.h` (and
`stats/FqStatisticWorker.h`): number of quality-score bins. -/
def MAX_QUAL : Nat := 42

/-- `MAX_BASE_NUM` from `stats/FqStatisticWorker.h`: base bins A,C,G,T,N. -/
def MAX_BASE_NUM : Nat := 5

--==============================================================================
-- Statistics accumulator and worker
-- (src/src/statistics/fq_statistic.cpp, fq_statistic_worker.cpp)
--==============================================================================

/-- `struct FqStatisticResult` from `stats/FqStatistic.h`: total read count,
read length, per-position x per-quality counts, per-position x per-base
counts. -/
structure FqStatisticResult where
  n_read : Nat
  read_length : Nat
  n_pos_qual : List (List Nat)
  n_pos_base : List (List Nat)
  deriving DecidableEq

/-- The default-constructed accumulator (all counters zero, empty tables),
as used for `final_result` in `FqStatistic::run` before aggregation. -/
def FqStatisticResult.init : FqStatisticResult :=
  { n_read := 0, read_length := 0, n_pos_qual := [], n_pos_base := [] }

/-- `FqStatisticResult::operator+=` (src/src/statistics/fq_statistic.cpp,
lines 23-27).  The C++ body adds only `n_read` ("Add other members here when
the struct is expanded"); `read_length`, `n_pos_qual` and `n_pos_base` of the
left operand are left unchanged and the right operand's are dropped. -/
def FqStatisticResult.addAssign (a other : FqStatisticResult) : FqStatisticResult :=
  { a with n_read := a.n_read + other.n_read }

/-- Increment `row[j]` (models `vec[j]++`; in-range in all uses below). -/
def bumpAt (row : List Nat) (j : Nat) : List Nat :=
  row.set j (row.getD j 0 + 1)

/-- Increment `t[i][j]` in a two-dimensional count table. -/
def bump2 (t : List (List Nat)) (i j : Nat) : List (List Nat) :=
  t.set i (bumpAt (t.getD i []) j)

/-- The `switch (read.base[i])` of `FqStatisticWorker::stat`: A, C, G, T map
to bins 0-3; 'N' and every other byte map to bin 4. -/
def baseIndex (b : Nat) : Nat :=
  if b = 65 then 0
  else if b = 67 then 1
  else if b = 71 then 2
  else if b = 84 then 3
  else 4

/-- One iteration of the inner position loop of `FqStatisticWorker::stat`:
`n_pos_qual[i][qual[i] - offset]++` and `n_pos_base[i][baseIndex(base[i])]++`. -/
def FqStatisticWorker.tally (offset : Nat) (read : FqInfo)
    (a : FqStatisticResult) (i : Nat) : FqStatisticResult :=
  { a with
    n_pos_qual := bump2 a.n_pos_qual i (read.qual.getD i 0 - offset)
    n_pos_base := bump2 a.n_pos_base i (baseIndex (read.base.getD i 0)) }

/-- The per-read body of `FqStatisticWorker::stat`: `result.n_read++` then the
position loop `for i in [0, read_length)`. -/
def FqStatisticWorker.statRead (offset rl : Nat)
    (a : FqStatisticResult) (read : FqInfo) : FqStatisticResult :=
  (List.range rl).foldl (FqStatisticWorker.tally offset read)
    { a with n_read := a.n_read + 1 }

/-- `FqStatisticWorker::stat` (src/src/statistics/fq_statistic_worker.cpp,
lines 14-49): on an empty batch return the default result; otherwise set
`read_length` from the first record's base length, zero the
`read_length x MAX_QUAL` and `read_length x MAX_BASE_NUM` tables, and tally
every read of the batch. -/
def FqStatisticWorker.stat (offset : Nat) (batch : List FqInfo) : FqStatisticResult :=
  match batch with
  | [] => FqStatisticResult.init
  | r :: _ =>
    let rl := r.base.length
    batch.foldl (FqStatisticWorker.statRead offset rl)
      { n_read := 0, read_length := rl
        n_pos_qual := List.replicate rl (List.replicate MAX_QUAL 0)
        n_pos_base := List.replicate rl (List.replicate MAX_BASE_NUM 0) }

/-- The stage-3 aggregation of `FqStatistic::run` (fq_statistic.cpp, lines
124-126): fold the per-batch results, in arrival order, into the
default-constructed `final_result` with `operator+=`. -/
def FqStatistic.aggregate (parts : List FqStatisticResult) : FqStatisticResult :=
  parts.foldl FqStatisticResult.addAssign FqStatisticResult.init

/-- The error kind thrown by the statistics pipeline's fixed-read-length
precheck ("Statistics generation requires a fixed read length."). -/
inductive StatError where
  | variableReadLength
  deriving DecidableEq

/-- The fields of `struct FqFileAttribution` (core_legacy/core.h) consulted by
the statistics pipeline's precheck; the remaining C++ fields are never read by
the embedded operations. -/
structure FqFileAttribution where
  read_length : Nat
  is_mutable_read_length : Bool
  deriving DecidableEq

/-- The fixed-read-length precheck at the top of `FqStatistic::run`
(fq_statistic.cpp, lines 79-82): throw when the inferred file attribution has
a mutable read length or a zero read length, before the pipeline starts. -/
def runFixedLengthCheck (attrib : FqFileAttribution) : Except StatError Unit :=
  if attrib.is_mutable_read_length || attrib.read_length == 0 then
    Except.error StatError.variableReadLength
  else
    Except.ok ()

--==============================================================================
-- Processing pipelines: predicate / mutator chains and per-batch loops
-- (ProcessingPipeline.cpp and tbb_processing_pipeline.cpp)
--==============================================================================

/-- Short-circuit conjunction of the predicate chain, exactly as both
pipelines run it: evaluate in list order, stop at the first `false`
(`for (predicate : m_predicates) if (!predicate->evaluate(read)) break`). -/
def passesPredicates : List (FqInfo → Bool) → FqInfo → Bool
  | [], _ => true
  | p :: ps, r => if p r then passesPredicates ps r else false

/-- The mutator loop of both pipelines: `mutator->process(read)` applied in
list order; each mutator edits the record in place and its Bool result is
discarded (`mutator->process(read);` with no check of the return value). -/
def applyMutators (ms : List (FqInfo → FqInfo × Bool)) (r : FqInfo) : FqInfo :=
  ms.foldl (fun cur m => (m cur).1) r

/-- The per-read body of `ProcessingPipeline::processBatch`
(ProcessingPipeline.cpp, lines 49-65): if all predicates pass, apply the
mutators and push the record onto `passed_reads`. -/
def processStep (ps : List (FqInfo → Bool)) (ms : List (FqInfo → FqInfo × Bool))
    (passed : List FqInfo) (r : FqInfo) : List FqInfo :=
  if passesPredicates ps r then passed ++ [applyMutators ms r] else passed

/-- `ProcessingPipeline::processBatch` (ProcessingPipeline.cpp, lines 45-69):
the surviving records of one batch, in input order. -/
def processBatch (ps : List (FqInfo → Bool)) (ms : List (FqInfo → FqInfo × Bool))
    (reads : List FqInfo) : List FqInfo :=
  reads.foldl (processStep ps ms) []

/-- `struct ProcessingStatistics`
(src/src/pipeline/processing/processing_pipeline.h, lines 39-69), counters
only; the two double fields are not consulted by any embedded operation. -/
structure ProcessingStatistics where
  total_reads : Nat
  passed_reads : Nat
  filtered_reads : Nat
  modified_reads : Nat
  error_reads : Nat
  deriving DecidableEq

/-- Default-constructed statistics: all counters zero. -/
def ProcessingStatistics.init : ProcessingStatistics :=
  { total_reads := 0, passed_reads := 0, filtered_reads := 0
    modified_reads := 0, error_reads := 0 }

/-- The per-read body of the TBB stage-2 processing filter
(tbb_processing_pipeline.cpp, lines 201-223): `total_reads++`; on a predicate
failure `filtered_reads++` and the record is dropped; on pass, every mutator
is applied (its result ignored) with `modified_reads++` per mutator, the
record is pushed and `passed_reads++`.  `error_reads` is never touched. -/
def processReadTbb (ps : List (FqInfo → Bool)) (ms : List (FqInfo → FqInfo × Bool))
    (st : List FqInfo × ProcessingStatistics) (r : FqInfo) :
    List FqInfo × ProcessingStatistics :=
  if passesPredicates ps r then
    (st.1 ++ [applyMutators ms r],
     { st.2 with
       total_reads := st.2.total_reads + 1
       modified_reads := st.2.modified_reads + ms.length
       passed_reads := st.2.passed_reads + 1 })
  else
    (st.1,
     { st.2 with
       total_reads := st.2.total_reads + 1
       filtered_reads := st.2.filtered_reads + 1 })

/-- The TBB stage-2 processing filter applied to one batch
(tbb_processing_pipeline.cpp, lines 191-234): surviving records in input
order, and the per-batch `batch_stats`. -/
def processBatchTbb (ps : List (FqInfo → Bool)) (ms : List (FqInfo → FqInfo × Bool))
    (reads : List FqInfo) : List FqInfo × ProcessingStatistics :=
  reads.foldl (processReadTbb ps ms) ([], ProcessingStatistics.init)

/-- The stage-3 accumulation of `TbbProcessingPipeline::run`
(tbb_processing_pipeline.cpp, lines 269-272): add the batch's
total/passed/filtered/modified counters into `final_stats`; `error_reads` is
not accumulated. -/
def accumStep (ps : List (FqInfo → Bool)) (ms : List (FqInfo → FqInfo × Bool))
    (s : ProcessingStatistics) (b : List FqInfo) : ProcessingStatistics :=
  { s with
    total_reads := s.total_reads + (processBatchTbb ps ms b).2.total_reads
    passed_reads := s.passed_reads + (processBatchTbb ps ms b).2.passed_reads
    filtered_reads := s.filtered_reads + (processBatchTbb ps ms b).2.filtered_reads
    modified_reads := s.modified_reads + (processBatchTbb ps ms b).2.modified_reads }

/-- The final statistics returned by `TbbProcessingPipeline::run` for a run
whose parse stage produced `batches`: stage 3 accumulates each batch's
counters into `final_stats` (lines 269-272), and after the pipeline finishes
`total_reads` and `passed_reads` are overwritten with the atomic S1/S2 totals
`total_reads_processed` (sum of batch sizes, line 292) and
`total_reads_passed` (sum of per-batch passed counts, line 293). -/
def TbbProcessingPipeline.finalStats (ps : List (FqInfo → Bool))
    (ms : List (FqInfo → FqInfo × Bool)) (batches : List (List FqInfo)) :
    ProcessingStatistics :=
  let folded := batches.foldl (accumStep ps ms) ProcessingStatistics.init
  { folded with
    total_reads := (batches.map List.length).sum
    passed_reads := (batches.map (fun b => (processBatchTbb ps ms b).2.passed_reads)).sum }

/-- `ProcessingStatistics::getPassRate`
(src/src/pipeline/processing/processing_pipeline.h, lines 52-54):
`total_reads > 0 ? passed_reads / total_reads : 0.0`, in exact arithmetic. -/
def ProcessingStatistics.getPassRate (s : ProcessingStatistics) : ℚ :=
  if 0 < s.total_reads then (s.passed_reads : ℚ) / (s.total_reads : ℚ) else 0

/-- `ProcessingStatistics::getFilterRate` (same header, lines 60-62):
`total_reads > 0 ? filtered_reads / total_reads : 0.0`. -/
def ProcessingStatistics.getFilterRate (s : ProcessingStatistics) : ℚ :=
  if 0 < s.total_reads then (s.filtered_reads : ℚ) / (s.total_reads : ℚ) else 0

--==============================================================================
-- Configuration validation (TbbProcessingPipeline::validate_config)
--==============================================================================

/-- The two configuration failures thrown by
`TbbProcessingPipeline::validate_config`. -/
inductive ConfigError where
  | maxTokensTooSmall
  | batchSizeTooSmall
  deriving DecidableEq

/-- `TbbProcessingPipeline::validate_config`
(tbb_processing_pipeline.cpp, lines 360-367), called from the constructor
before any stage runs: throw when `max_tokens < 1`, then when
`batch_size < 1`; otherwise accept. -/
def validate_config (max_tokens batch_size : Nat) : Except ConfigError Unit :=
  if max_tokens < 1 then Except.error ConfigError.maxTokensTooSmall
  else if batch_size < 1 then Except.error ConfigError.batchSizeTooSmall
  else Except.ok ()

--==============================================================================
-- Batch object pool (FqInfoBatchPool, src/src/memory/batch_memory_manager.cpp)
--==============================================================================

/-- Whether an acquire was served from the queue or by a fresh allocation. -/
inductive AcquireSource where
  | fromPool
  | allocated
  deriving DecidableEq

/-- Counter state of `FqInfoBatchPool`: `pool` is the number of cleared
batches queued in `m_pool` (batches are interchangeable cleared objects, so a
count models the queue), and the remaining fields are the `m_*` counters. -/
structure FqInfoBatchPool where
  max_size : Nat
  pool : Nat
  active_count : Nat
  hit_count : Nat
  miss_count : Nat
  total_allocated : Nat
  total_freed : Nat
  deriving DecidableEq

/-- The pool after the constructor's `preallocate(initial_size)`
(batch_memory_manager.cpp, lines 108-118): `min(initial_size, max_size)`
batches are allocated into the queue. -/
def FqInfoBatchPool.mkInit (initial_size max_size : Nat) : FqInfoBatchPool :=
  { max_size := max_size, pool := min initial_size max_size, active_count := 0
    hit_count := 0, miss_count := 0
    total_allocated := min initial_size max_size, total_freed := 0 }

/-- `FqInfoBatchPool::acquire` (batch_memory_manager.cpp, lines 27-45): if the
queue is non-empty, pop a batch (`hit_count++`, `active_count++`); otherwise —
with no blocking, no capacity test and no shutdown path — allocate a fresh
batch (`miss_count++`, `active_count++`, `total_allocated++`). -/
def FqInfoBatchPool.acquire (s : FqInfoBatchPool) : FqInfoBatchPool × AcquireSource :=
  if 0 < s.pool then
    ({ s with pool := s.pool - 1, active_count := s.active_count + 1
              hit_count := s.hit_count + 1 }, AcquireSource.fromPool)
  else
    ({ s with active_count := s.active_count + 1, miss_count := s.miss_count + 1
              total_allocated := s.total_allocated + 1 }, AcquireSource.allocated)

/-- `FqInfoBatchPool::release` (batch_memory_manager.cpp, lines 47-69): clear
the batch; requeue it when the queue is below `max_size`, else drop it; either
way `active_count--`, `total_freed++`. -/
def FqInfoBatchPool.release (s : FqInfoBatchPool) : FqInfoBatchPool :=
  if s.pool < s.max_size then
    { s with pool := s.pool + 1, active_count := s.active_count - 1
             total_freed := s.total_freed + 1 }
  else
    { s with active_count := s.active_count - 1, total_freed := s.total_freed + 1 }

/-- One pool operation of a run: an acquire by the parse stage or a release by
the sink stage. -/
inductive PoolOp where
  | acq
  | rel
  deriving DecidableEq

/-- Apply one pool operation to the pool state. -/
def FqInfoBatchPool.step (s : FqInfoBatchPool) : PoolOp → FqInfoBatchPool
  | PoolOp.acq => (FqInfoBatchPool.acquire s).1
  | PoolOp.rel => FqInfoBatchPool.release s

/-- The pool state after a run that performed `ops` in order, starting from
the freshly constructed pool. -/
def FqInfoBatchPool.runOps (initial_size max_size : Nat) (ops : List PoolOp) :
    FqInfoBatchPool :=
  ops.foldl FqInfoBatchPool.step (FqInfoBatchPool.mkInit initial_size max_size)

/-- The number of acquires in a sequence of pool operations. -/
def countAcq : List PoolOp → Nat
  | [] => 0
  | PoolOp.acq :: ops => countAcq ops + 1
  | PoolOp.rel :: ops => countAcq ops

--==============================================================================
-- Quality trimmer mutator (src/src/processing/mutators/quality_trimmer.cpp)
--==============================================================================

/-- `QualityTrimmer::TrimMode` (quality_trimmer.h). -/
inductive TrimMode where
  | Both
  | FivePrime
  | ThreePrime
  deriving DecidableEq

/-- The constructor parameters of `QualityTrimmer` consulted by `process`:
threshold (a double holding an exact small value, modelled as a rational),
minimum retained length, trim mode and phred encoding offset. -/
structure TrimCfg where
  quality_threshold : ℚ
  min_length : Nat
  trim_mode : TrimMode
  quality_encoding : Nat
  deriving DecidableEq

/-- `QualityTrimmer::isHighQuality` (quality_trimmer.cpp, lines 123-126):
`(unsigned char)qc - encoding >= threshold`.  The operands are small integers,
so the double comparison is exact and the rational model is faithful. -/
def isHighQuality (cfg : TrimCfg) (q : Nat) : Bool :=
  cfg.quality_threshold ≤ ((q : ℤ) - (cfg.quality_encoding : ℤ) : ℚ)

/-- `QualityTrimmer::trimFivePrime` (quality_trimmer.cpp, lines 105-112):
index of the first high-quality position, or the length if none. -/
def trimFivePrime (cfg : TrimCfg) (qual : List Nat) : Nat :=
  qual.findIdx (isHighQuality cfg)

/-- The loop of `QualityTrimmer::trimThreePrime` (quality_trimmer.cpp, lines
114-121): scan `i` from the length down to 1 and return the first `i` whose
position `i - 1` is high quality, or 0 if none. -/
def trimThreePrimeFrom (cfg : TrimCfg) (qual : List Nat) : Nat → Nat
  | 0 => 0
  | i + 1 =>
    if isHighQuality cfg (qual.getD i 0) then i + 1
    else trimThreePrimeFrom cfg qual i

/-- `QualityTrimmer::trimThreePrime`: one past the last high-quality
position, or 0 if none. -/
def trimThreePrime (cfg : TrimCfg) (qual : List Nat) : Nat :=
  trimThreePrimeFrom cfg qual qual.length

/-- The `start_pos` computed by `QualityTrimmer::process` (lines 43-49):
trim the 5' end in modes Both and FivePrime, else 0. -/
def QualityTrimmer.startPos (cfg : TrimCfg) (read : FqInfo) : Nat :=
  if cfg.trim_mode = TrimMode.Both ∨ cfg.trim_mode = TrimMode.FivePrime then
    trimFivePrime cfg read.qual
  else 0

/-- The `end_pos` computed by `QualityTrimmer::process` (lines 44-53):
trim the 3' end in modes Both and ThreePrime, else the original length. -/
def QualityTrimmer.endPos (cfg : TrimCfg) (read : FqInfo) : Nat :=
  if cfg.trim_mode = TrimMode.Both ∨ cfg.trim_mode = TrimMode.ThreePrime then
    trimThreePrime cfg read.qual
  else read.base.length

/-- `std::string::substr(pos, count)` for `pos <= length`. -/
def substr (l : List Nat) (pos count : Nat) : List Nat :=
  (l.drop pos).take count

/-- `QualityTrimmer::process` (quality_trimmer.cpp, lines 30-74), returning
the edited record and the Bool the C++ returns: fail on an empty sequence or
quality or on diverging lengths; clear both strings (and succeed) when the
retained window is empty or shorter than `min_length`; otherwise take the
window out of both strings when it is proper, or leave the record unchanged. -/
def QualityTrimmer.process (cfg : TrimCfg) (read : FqInfo) : FqInfo × Bool :=
  if read.base = [] ∨ read.qual = [] then (read, false)
  else if read.base.length ≠ read.qual.length then (read, false)
  else if QualityTrimmer.endPos cfg read ≤ QualityTrimmer.startPos cfg read
      ∨ QualityTrimmer.endPos cfg read - QualityTrimmer.startPos cfg read < cfg.min_length then
    ({ read with base := [], qual := [] }, true)
  else if 0 < QualityTrimmer.startPos cfg read
      ∨ QualityTrimmer.endPos cfg read < read.base.length then
    ({ read with
       base := substr read.base (QualityTrimmer.startPos cfg read)
         (QualityTrimmer.endPos cfg read - QualityTrimmer.startPos cfg read)
       qual := substr read.qual (QualityTrimmer.startPos cfg read)
         (QualityTrimmer.endPos cfg read - QualityTrimmer.startPos cfg read) }, true)
  else (read, true)

--==============================================================================
-- Minimum-quality predicate (src/src/processing/predicates/min_quality_predicate.cpp)
--==============================================================================

/-- `MinQualityPredicate::calculateAverageQuality` (min_quality_predicate.cpp,
lines 73-84): 0 for an empty quality string, else the mean of
`(unsigned char)qc - encoding` over the string, in exact arithmetic. -/
def calculateAverageQuality (enc : Nat) (qual : List Nat) : ℚ :=
  if qual = [] then 0
  else (qual.map (fun c => ((c : ℤ) - (enc : ℤ) : ℚ))).sum / (qual.length : ℚ)

/-- `MinQualityPredicate::evaluate` (min_quality_predicate.cpp, lines 26-43):
reject any record whose quality string is empty; otherwise accept iff the
average quality reaches the threshold. -/
def MinQualityPredicate.evaluate (min_quality : ℚ) (enc : Nat) (read : FqInfo) : Bool :=
  if read.qual = [] then false
  else min_quality ≤ calculateAverageQuality enc read.qual

--==============================================================================
-- Concrete inputs used by counterexamples and witnesses
--==============================================================================

/-- A one-record batch: name "r1", base "A", quality byte 63 (phred 30). -/
def batchR1 : List FqInfo := [{ name := [114, 49], base := [65], qual := [63] }]

/-- A one-record batch: name "r2", base "C", quality byte 68 (phred 35). -/
def batchR2 : List FqInfo := [{ name := [114, 50], base := [67], qual := [68] }]

/-- A file attribution whose inferred fixed read length is 4. -/
def attribLen4 : FqFileAttribution :=
  { read_length := 4, is_mutable_read_length := false }

/-- A one-record batch whose first record has length 2 ("AC" / quality 63 63),
differing from the inferred length of `attribLen4`. -/
def batchLen2 : List FqInfo := [{ name := [114, 51], base := [65, 67], qual := [63, 63] }]

/-- A record with a non-empty base but an empty quality string; every trimmer
and quality predicate treats it as invalid input. -/
def readNoQual : FqInfo := { name := [], base := [65], qual := [] }

/-- A default-like trimmer configuration: threshold 20, minimum length 1,
both ends, Sanger offset 33. -/
def trimCfg0 : TrimCfg :=
  { quality_threshold := 20, min_length := 1, trim_mode := TrimMode.Both
    quality_encoding := 33 }

/-- A well-formed single-base record: base "A", quality byte 73 (phred 40). -/
def readA40 : FqInfo := { name := [114, 52], base := [65], qual := [73] }

/-- A concrete coherent counter state: 4 reads in, 3 passed, 1 filtered. -/
def statsDemo : ProcessingStatistics :=
  { total_reads := 4, passed_reads := 3, filtered_reads := 1
    modified_reads := 0, error_reads := 0 }

--==============================================================================
-- Helper lemmas (shared; not tied to any single claim)
--==============================================================================

/-- The short-circuit predicate chain computes the full conjunction. -/
theorem passesPredicates_eq_all (ps : List (FqInfo → Bool)) (r : FqInfo) :
    passesPredicates ps r = ps.all (fun p => p r) := by
  induction ps with
  | nil => rfl
  | cons p ps ih => by_cases h : p r <;> simp [passesPredicates, h, ih]

/-- The sequential per-batch loop, from any accumulator, appends exactly the
mutated survivors. -/
theorem processBatch_foldl (ps : List (FqInfo → Bool)) (ms : List (FqInfo → FqInfo × Bool))
    (reads : List FqInfo) (acc : List FqInfo) :
    reads.foldl (processStep ps ms) acc
      = acc ++ (reads.filter (fun r => passesPredicates ps r)).map (applyMutators ms) := by
  induction reads generalizing acc with
  | nil => simp
  | cons r rs ih =>
    by_cases h : passesPredicates ps r <;>
      simp [processStep, h, ih, List.filter_cons]

/-- The TBB per-batch loop, from any accumulator, appends exactly the mutated
survivors to the output list. -/
theorem processBatchTbb_out (ps : List (FqInfo → Bool)) (ms : List (FqInfo → FqInfo × Bool))
    (reads : List FqInfo) (acc : List FqInfo × ProcessingStatistics) :
    (reads.foldl (processReadTbb ps ms) acc).1
      = acc.1 ++ (reads.filter (fun r => passesPredicates ps r)).map (applyMutators ms) := by
  induction reads generalizing acc with
  | nil => simp
  | cons r rs ih =>
    rw [List.foldl_cons, ih]
    by_cases h : passesPredicates ps r <;>
      simp [processReadTbb, h, List.filter_cons]

/-- Counter bookkeeping of the TBB per-batch loop: each read bumps
`total_reads`, lands in exactly one of `passed_reads` / `filtered_reads`, and
`error_reads` is never touched. -/
theorem processBatchTbb_counters (ps : List (FqInfo → Bool))
    (ms : List (FqInfo → FqInfo × Bool)) (reads : List FqInfo)
    (acc : List FqInfo × ProcessingStatistics) :
    (reads.foldl (processReadTbb ps ms) acc).2.total_reads = acc.2.total_reads + reads.length
    ∧ (reads.foldl (processReadTbb ps ms) acc).2.passed_reads
        + (reads.foldl (processReadTbb ps ms) acc).2.filtered_reads
        = acc.2.passed_reads + acc.2.filtered_reads + reads.length
    ∧ (reads.foldl (processReadTbb ps ms) acc).2.error_reads = acc.2.error_reads := by
  induction reads generalizing acc with
  | nil => simp
  | cons r rs ih =>
    obtain ⟨ih1, ih2, ih3⟩ := ih (processReadTbb ps ms acc r)
    rw [List.foldl_cons] at *
    by_cases h : passesPredicates ps r
    · have e1 : (processReadTbb ps ms acc r).2.total_reads = acc.2.total_reads + 1 := by
        simp [processReadTbb, h]
      have e2 : (processReadTbb ps ms acc r).2.passed_reads = acc.2.passed_reads + 1 := by
        simp [processReadTbb, h]
      have e3 : (processReadTbb ps ms acc r).2.filtered_reads = acc.2.filtered_reads := by
        simp [processReadTbb, h]
      have e4 : (processReadTbb ps ms acc r).2.error_reads = acc.2.error_reads := by
        simp [processReadTbb, h]
      have hl : (r :: rs).length = rs.length + 1 := rfl
      refine ⟨?_, ?_, ?_⟩ <;> omega
    · have e1 : (processReadTbb ps ms acc r).2.total_reads = acc.2.total_reads + 1 := by
        simp [processReadTbb, h]
      have e2 : (processReadTbb ps ms acc r).2.passed_reads = acc.2.passed_reads := by
        simp [processReadTbb, h]
      have e3 : (processReadTbb ps ms acc r).2.filtered_reads = acc.2.filtered_reads + 1 := by
        simp [processReadTbb, h]
      have e4 : (processReadTbb ps ms acc r).2.error_reads = acc.2.error_reads := by
        simp [processReadTbb, h]
      have hl : (r :: rs).length = rs.length + 1 := rfl
      refine ⟨?_, ?_, ?_⟩ <;> omega

/-- Per-batch counter coherence of the TBB stage-2 filter. -/
theorem processBatchTbb_coherent (ps : List (FqInfo → Bool))
    (ms : List (FqInfo → FqInfo × Bool)) (b : List FqInfo) :
    (processBatchTbb ps ms b).2.total_reads = b.length
    ∧ (processBatchTbb ps ms b).2.passed_reads + (processBatchTbb ps ms b).2.filtered_reads
        = b.length
    ∧ (processBatchTbb ps ms b).2.error_reads = 0 := by
  obtain ⟨h1, h2, h3⟩ :=
    processBatchTbb_counters ps ms b ([], ProcessingStatistics.init)
  unfold processBatchTbb
  refine ⟨by simpa [ProcessingStatistics.init] using h1,
    by simpa [ProcessingStatistics.init] using h2,
    by simpa [ProcessingStatistics.init] using h3⟩

/-- Stage-3 accumulation over batches: `filtered_reads` sums the per-batch
filtered counts and `error_reads` is never accumulated. -/
theorem accumStats_foldl (ps : List (FqInfo → Bool)) (ms : List (FqInfo → FqInfo × Bool))
    (batches : List (List FqInfo)) (s : ProcessingStatistics) :
    (batches.foldl (accumStep ps ms) s).filtered_reads
      = s.filtered_reads
        + (batches.map (fun b => (processBatchTbb ps ms b).2.filtered_reads)).sum
    ∧ (batches.foldl (accumStep ps ms) s).error_reads = s.error_reads := by
  induction batches generalizing s with
  | nil => simp
  | cons b bs ih =>
    obtain ⟨ih1, ih2⟩ := ih (accumStep ps ms s b)
    rw [List.foldl_cons] at *
    have e1 : (accumStep ps ms s b).filtered_reads
        = s.filtered_reads + (processBatchTbb ps ms b).2.filtered_reads := by
      simp [accumStep]
    have e2 : (accumStep ps ms s b).error_reads = s.error_reads := by
      simp [accumStep]
    constructor
    · rw [ih1, e1]; simp; omega
    · rw [ih2, e2]

/-- Across batches, passed plus filtered counts sum to the total record
count. -/
theorem sum_passed_add_filtered (ps : List (FqInfo → Bool))
    (ms : List (FqInfo → FqInfo × Bool)) (batches : List (List FqInfo)) :
    (batches.map (fun b => (processBatchTbb ps ms b).2.passed_reads)).sum
      + (batches.map (fun b => (processBatchTbb ps ms b).2.filtered_reads)).sum
      = (batches.map List.length).sum := by
  induction batches with
  | nil => simp
  | cons b bs ih =>
    obtain ⟨-, h2, -⟩ := processBatchTbb_coherent ps ms b
    simp only [List.map_cons, List.sum_cons]
    omega

/-- The inner position loop of the statistics worker never changes
`read_length`. -/
theorem tally_foldl_read_length (offset : Nat) (read : FqInfo) (l : List Nat)
    (a : FqStatisticResult) :
    (l.foldl (FqStatisticWorker.tally offset read) a).read_length = a.read_length := by
  induction l generalizing a with
  | nil => rfl
  | cons i l ih =>
    rw [List.foldl_cons, ih]
    rfl

/-- One per-read step of the statistics worker never changes `read_length`. -/
theorem statRead_read_length (offset rl : Nat) (a : FqStatisticResult) (read : FqInfo) :
    (FqStatisticWorker.statRead offset rl a read).read_length = a.read_length := by
  unfold FqStatisticWorker.statRead
  rw [tally_foldl_read_length]

/-- The worker's whole fold never changes `read_length`. -/
theorem statRead_foldl_read_length (offset rl : Nat) (reads : List FqInfo)
    (a : FqStatisticResult) :
    (reads.foldl (FqStatisticWorker.statRead offset rl) a).read_length = a.read_length := by
  induction reads generalizing a with
  | nil => rfl
  | cons r rs ih =>
    rw [List.foldl_cons, ih, statRead_read_length]

/-- One pool operation never changes the pool's capacity field. -/
theorem pool_step_max_size (s : FqInfoBatchPool) (op : PoolOp) :
    (FqInfoBatchPool.step s op).max_size = s.max_size := by
  cases op <;>
    simp only [FqInfoBatchPool.step, FqInfoBatchPool.acquire, FqInfoBatchPool.release] <;>
    split_ifs <;> rfl

/-- Each acquire bumps exactly one of `hit_count` / `miss_count`; a release
bumps neither. -/
theorem pool_step_hits_misses (s : FqInfoBatchPool) (op : PoolOp) :
    (FqInfoBatchPool.step s op).hit_count + (FqInfoBatchPool.step s op).miss_count
      = s.hit_count + s.miss_count + countAcq [op] := by
  cases op <;>
    simp only [FqInfoBatchPool.step, FqInfoBatchPool.acquire, FqInfoBatchPool.release,
      countAcq] <;>
    split_ifs <;> simp <;> omega

/-- One pool operation keeps the queued-batch count at or below capacity. -/
theorem pool_step_pool_le (s : FqInfoBatchPool) (op : PoolOp)
    (h : s.pool ≤ s.max_size) :
    (FqInfoBatchPool.step s op).pool ≤ s.max_size := by
  cases op <;>
    simp only [FqInfoBatchPool.step, FqInfoBatchPool.acquire, FqInfoBatchPool.release] <;>
    split_ifs <;> simp <;> omega

/-- Fold version of the three pool single-step facts. -/
theorem pool_foldl_inv (ops : List PoolOp) (s : FqInfoBatchPool) :
    (ops.foldl FqInfoBatchPool.step s).max_size = s.max_size
    ∧ (ops.foldl FqInfoBatchPool.step s).hit_count
        + (ops.foldl FqInfoBatchPool.step s).miss_count
        = s.hit_count + s.miss_count + countAcq ops
    ∧ (s.pool ≤ s.max_size → (ops.foldl FqInfoBatchPool.step s).pool ≤ s.max_size) := by
  induction ops generalizing s with
  | nil => simp [countAcq]
  | cons op ops ih =>
    obtain ⟨ih1, ih2, ih3⟩ := ih (FqInfoBatchPool.step s op)
    have e1 := pool_step_max_size s op
    have e2 := pool_step_hits_misses s op
    have e3 := pool_step_pool_le s op
    rw [List.foldl_cons]
    refine ⟨by rw [ih1, e1], ?_, ?_⟩
    · rw [ih2]
      cases op <;> simp only [countAcq] at e2 ⊢ <;> omega
    · intro h
      have h4 : (FqInfoBatchPool.step s op).pool ≤ (FqInfoBatchPool.step s op).max_size := by
        rw [e1]; exact e3 h
      have h5 := ih3 h4
      omega

--==============================================================================
-- Claim theorems
--==============================================================================

/-- Claim C1 (the code violates it): at the failing input — two length-1
records split into two singleton batches — the stage-3 fold of the per-batch
accumulators with `operator+=` keeps only `n_read`: it yields `read_length = 0`
and empty position tables, whereas the accumulator of the sequential one-batch
tally of the same records has `read_length = 1` and non-empty tables.  So the
merge is not elementwise addition over all four components. -/
theorem stat_merge_drops_position_tables :
    (FqStatistic.aggregate
        [FqStatisticWorker.stat 33 batchR1, FqStatisticWorker.stat 33 batchR2]).n_read = 2
    ∧ (FqStatistic.aggregate
        [FqStatisticWorker.stat 33 batchR1, FqStatisticWorker.stat 33 batchR2]).read_length = 0
    ∧ (FqStatistic.aggregate
        [FqStatisticWorker.stat 33 batchR1, FqStatisticWorker.stat 33 batchR2]).n_pos_qual = []
    ∧ (FqStatisticWorker.stat 33 (batchR1 ++ batchR2)).read_length = 1
    ∧ (FqStatisticWorker.stat 33 (batchR1 ++ batchR2)).n_pos_qual ≠ [] := by
  decide

/-- Claim C2: a record appears in a batch's output iff every predicate in the
chain accepts it (the chain being the short-circuit conjunction in list
order), and each surviving record's value is the mutator chain applied in list
order — in both the sequential `processBatch` and the TBB stage-2 filter. -/
theorem chain_semantics_filter_map (ps : List (FqInfo → Bool))
    (ms : List (FqInfo → FqInfo × Bool)) (reads : List FqInfo) :
    processBatch ps ms reads
      = (reads.filter (fun r => passesPredicates ps r)).map (applyMutators ms)
    ∧ (processBatchTbb ps ms reads).1
      = (reads.filter (fun r => passesPredicates ps r)).map (applyMutators ms)
    ∧ ∀ r, passesPredicates ps r = ps.all (fun p => p r) := by
  refine ⟨?_, ?_, passesPredicates_eq_all ps⟩
  · unfold processBatch
    rw [processBatch_foldl]
    simp
  · unfold processBatchTbb
    rw [processBatchTbb_out]
    simp

/-- Counterexample to claim C3: the record `readNoQual` passes the (empty)
predicate chain and the quality-trimmer mutator fails on it (returns false),
yet the record still appears in the stage-2 output and `error_reads` stays 0
instead of rising to 1. -/
theorem mutator_failure_not_dropped_cex :
    (QualityTrimmer.process trimCfg0 readNoQual).2 = false
    ∧ (processBatchTbb [] [QualityTrimmer.process trimCfg0] [readNoQual]).1 = [readNoQual]
    ∧ (processBatchTbb [] [QualityTrimmer.process trimCfg0] [readNoQual]).2.error_reads = 0 := by
  refine ⟨rfl, rfl, rfl⟩

/-- Claim C3 (amended): both pipelines ignore the mutators' Bool results — a
record that passes the predicate chain stays in the output with every
mutator's in-place edit applied even when a mutator fails, `records_errored`
(`error_reads`) is never incremented, and processing continues over all
records of the batch. -/
theorem mutator_failure_ignored (ps : List (FqInfo → Bool))
    (ms : List (FqInfo → FqInfo × Bool)) (reads : List FqInfo) :
    (processBatchTbb ps ms reads).2.error_reads = 0
    ∧ (processBatchTbb ps ms reads).2.total_reads = reads.length
    ∧ (processBatchTbb ps ms reads).1
      = (reads.filter (fun r => passesPredicates ps r)).map (applyMutators ms) := by
  obtain ⟨h1, -, h3⟩ := processBatchTbb_coherent ps ms reads
  refine ⟨h3, h1, ?_⟩
  unfold processBatchTbb
  rw [processBatchTbb_out]
  simp

/-- Counterexample to claim C4: with capacity 1 and an initially empty queue,
two acquires both return a batch immediately — the second one, issued when
the queue was empty and the live count already equalled the capacity, simply
allocates (no blocking, no `PoolShuttingDown`), leaving
`in_flight + in_pool = 2 > 1 = capacity`. -/
theorem pool_acquire_exceeds_capacity_cex :
    (FqInfoBatchPool.mkInit 0 1).max_size = 1
    ∧ (FqInfoBatchPool.acquire (FqInfoBatchPool.runOps 0 1 [PoolOp.acq])).2
        = AcquireSource.allocated
    ∧ (FqInfoBatchPool.runOps 0 1 [PoolOp.acq, PoolOp.acq]).active_count
        + (FqInfoBatchPool.runOps 0 1 [PoolOp.acq, PoolOp.acq]).pool = 2 := by
  decide

/-- Claim C4 (amended): across any run, the number of batches queued in the
pool never exceeds the capacity `max_size`, hits plus misses equals the total
number of acquires, and an acquire allocates a fresh batch exactly when the
queue is empty (it never blocks and never fails, so `in_flight` alone is not
bounded by the capacity). -/
theorem pool_accounting (initial_size max_size : Nat) (ops : List PoolOp) :
    (FqInfoBatchPool.runOps initial_size max_size ops).pool ≤ max_size
    ∧ (FqInfoBatchPool.runOps initial_size max_size ops).hit_count
        + (FqInfoBatchPool.runOps initial_size max_size ops).miss_count = countAcq ops
    ∧ ∀ s : FqInfoBatchPool,
        (FqInfoBatchPool.acquire s).2 = AcquireSource.allocated ↔ s.pool = 0 := by
  obtain ⟨h1, h2, h3⟩ := pool_foldl_inv ops (FqInfoBatchPool.mkInit initial_size max_size)
  refine ⟨?_, ?_, ?_⟩
  · have : (FqInfoBatchPool.mkInit initial_size max_size).pool
        ≤ (FqInfoBatchPool.mkInit initial_size max_size).max_size := by
      simp [FqInfoBatchPool.mkInit]
    simpa [FqInfoBatchPool.runOps, FqInfoBatchPool.mkInit] using h3 this
  · simpa [FqInfoBatchPool.runOps, FqInfoBatchPool.mkInit] using h2
  · intro s
    by_cases h : 0 < s.pool <;> simp [FqInfoBatchPool.acquire, h] <;> omega

/-- Claim C5: for any run of the TBB processing pipeline over any list of
batches, the returned final statistics satisfy
`total_reads = passed_reads + filtered_reads + error_reads`. -/
theorem counter_coherence (ps : List (FqInfo → Bool))
    (ms : List (FqInfo → FqInfo × Bool)) (batches : List (List FqInfo)) :
    (TbbProcessingPipeline.finalStats ps ms batches).total_reads
      = (TbbProcessingPipeline.finalStats ps ms batches).passed_reads
        + (TbbProcessingPipeline.finalStats ps ms batches).filtered_reads
        + (TbbProcessingPipeline.finalStats ps ms batches).error_reads := by
  obtain ⟨hf, he⟩ := accumStats_foldl ps ms batches ProcessingStatistics.init
  have hs := sum_passed_add_filtered ps ms batches
  have hinit_f : ProcessingStatistics.init.filtered_reads = 0 := rfl
  have hinit_e : ProcessingStatistics.init.error_reads = 0 := rfl
  rw [hinit_f] at hf
  rw [hinit_e] at he
  show (batches.map List.length).sum
      = (batches.map (fun b => (processBatchTbb ps ms b).2.passed_reads)).sum
        + (batches.foldl (accumStep ps ms) ProcessingStatistics.init).filtered_reads
        + (batches.foldl (accumStep ps ms) ProcessingStatistics.init).error_reads
  omega

/-- Counterexample to claim C6: a configuration with a token budget of 1 —
which is less than 2 — passes `validate_config` (with batch size 1), so no
`ConfigError` is produced for it. -/
theorem validate_config_accepts_budget_one :
    validate_config 1 1 = Except.ok () ∧ (1 : Nat) < 2 := by
  exact ⟨rfl, by omega⟩

/-- Claim C6 (amended): `validate_config`, run from the pipeline constructor
before any stage starts, accepts a configuration exactly when the token budget
(`max_tokens`) is at least 1 and the batch size is at least 1; only a budget
of 0 or a batch size of 0 is rejected with a configuration error. -/
theorem validate_config_ok_iff (max_tokens batch_size : Nat) :
    validate_config max_tokens batch_size = Except.ok ()
      ↔ 1 ≤ max_tokens ∧ 1 ≤ batch_size := by
  unfold validate_config
  split_ifs with h1 h2 <;> simp_all <;> omega

/-- Counterexample to claim C7: with an inferred fixed read length of 4, the
statistics transform stage applied to a batch whose first record has length 2
does not fail — `stat` is total and simply tallies the batch under its own
first-record length 2 (the upfront precheck on the file attribution passes and
is the only place a variable-read-length failure can arise). -/
theorem stat_no_variable_length_failure_cex :
    runFixedLengthCheck attribLen4 = Except.ok ()
    ∧ (FqStatisticWorker.stat 33 batchLen2).read_length = 2
    ∧ attribLen4.read_length ≠ 2 := by
  refine ⟨rfl, by decide, by decide⟩

/-- Claim C7 (amended): the statistics transform stage performs no per-batch
length check — on any non-empty batch it returns an accumulator whose
`read_length` is the first record's base length, whatever the inferred length
was; the fixed-read-length failure is raised only by the precheck before the
pipeline starts, exactly when the inferred attribution has
`is_mutable_read_length` or `read_length == 0`. -/
theorem stat_read_length_from_first_record (offset : Nat) (r : FqInfo)
    (rest : List FqInfo) (attrib : FqFileAttribution) :
    (FqStatisticWorker.stat offset (r :: rest)).read_length = r.base.length
    ∧ (runFixedLengthCheck attrib = Except.error StatError.variableReadLength
        ↔ (attrib.is_mutable_read_length = true ∨ attrib.read_length = 0)) := by
  constructor
  · show ((r :: rest).foldl (FqStatisticWorker.statRead offset r.base.length)
      { n_read := 0, read_length := r.base.length
        n_pos_qual := List.replicate r.base.length (List.replicate MAX_QUAL 0)
        n_pos_base := List.replicate r.base.length (List.replicate MAX_BASE_NUM 0) }).read_length
      = r.base.length
    rw [statRead_foldl_read_length]
  · unfold runFixedLengthCheck
    split_ifs with h <;> simp_all

/-- Claim C8: for every coherent counter state (passed and filtered not
exceeding total), the reported pass rate equals `passed / max(1, total)` and
the filter rate equals `filtered / max(1, total)`; when `total_reads = 0` both
rates are 0, and no division by zero occurs (the getters branch on
`total_reads > 0`). -/
theorem rates_safe_division (s : ProcessingStatistics)
    (hp : s.passed_reads ≤ s.total_reads) (hf : s.filtered_reads ≤ s.total_reads) :
    s.getPassRate = (s.passed_reads : ℚ) / ((max 1 s.total_reads : Nat) : ℚ)
    ∧ s.getFilterRate = (s.filtered_reads : ℚ) / ((max 1 s.total_reads : Nat) : ℚ)
    ∧ (s.total_reads = 0 → s.getPassRate = 0 ∧ s.getFilterRate = 0) := by
  rcases Nat.eq_zero_or_pos s.total_reads with h | h
  · have hp0 : s.passed_reads = 0 := by omega
    have hf0 : s.filtered_reads = 0 := by omega
    simp [ProcessingStatistics.getPassRate, ProcessingStatistics.getFilterRate, h, hp0, hf0]
  · have hmax : max 1 s.total_reads = s.total_reads := Nat.max_eq_right h
    have hne : s.total_reads ≠ 0 := by omega
    refine ⟨?_, ?_, fun h0 => absurd h0 hne⟩
    · simp [ProcessingStatistics.getPassRate, h, hmax]
    · simp [ProcessingStatistics.getFilterRate, h, hmax]

/-- Witness for claim C8 at the concrete coherent state `statsDemo`. -/
theorem rates_safe_division_witness :
    statsDemo.passed_reads ≤ statsDemo.total_reads
    ∧ statsDemo.filtered_reads ≤ statsDemo.total_reads
    ∧ (statsDemo.getPassRate
          = (statsDemo.passed_reads : ℚ) / ((max 1 statsDemo.total_reads : Nat) : ℚ)
        ∧ statsDemo.getFilterRate
          = (statsDemo.filtered_reads : ℚ) / ((max 1 statsDemo.total_reads : Nat) : ℚ)
        ∧ (statsDemo.total_reads = 0
            → statsDemo.getPassRate = 0 ∧ statsDemo.getFilterRate = 0)) :=
  ⟨by decide, by decide, rates_safe_division statsDemo (by decide) (by decide)⟩

/-- Claim C9: on any record with non-empty sequence and quality of equal
length, the quality trimmer preserves `len(sequence) = len(quality)`, returns
true, and in the edge case where the retained window `[start_pos, end_pos)` is
empty or shorter than `min_length` it sets both sequence and quality to empty
(the record is kept as an empty read, not dropped or reported as an error). -/
theorem quality_trimmer_preserves_length (cfg : TrimCfg) (read : FqInfo)
    (h1 : read.base ≠ []) (h2 : read.qual ≠ [])
    (hlen : read.base.length = read.qual.length) :
    ((QualityTrimmer.process cfg read).1.base.length
        = (QualityTrimmer.process cfg read).1.qual.length)
    ∧ (QualityTrimmer.process cfg read).2 = true
    ∧ ((QualityTrimmer.endPos cfg read ≤ QualityTrimmer.startPos cfg read
        ∨ QualityTrimmer.endPos cfg read - QualityTrimmer.startPos cfg read
            < cfg.min_length)
      → (QualityTrimmer.process cfg read).1.base = []
        ∧ (QualityTrimmer.process cfg read).1.qual = []) := by
  unfold QualityTrimmer.process
  rw [if_neg (by simp [h1, h2]), if_neg (by simp [hlen])]
  by_cases hc : QualityTrimmer.endPos cfg read ≤ QualityTrimmer.startPos cfg read
      ∨ QualityTrimmer.endPos cfg read - QualityTrimmer.startPos cfg read < cfg.min_length
  · rw [if_pos hc]
    exact ⟨rfl, rfl, fun _ => ⟨rfl, rfl⟩⟩
  · rw [if_neg hc]
    by_cases hs : 0 < QualityTrimmer.startPos cfg read
        ∨ QualityTrimmer.endPos cfg read < read.base.length
    · rw [if_pos hs]
      refine ⟨?_, rfl, fun hco => absurd hco hc⟩
      simp [substr, hlen]
    · rw [if_neg hs]
      exact ⟨by rw [hlen], rfl, fun hco => absurd hco hc⟩

/-- Witness for claim C9 at the concrete record `readA40` with the default
trimmer configuration. -/
theorem quality_trimmer_preserves_length_witness :
    readA40.base ≠ [] ∧ readA40.qual ≠ []
    ∧ readA40.base.length = readA40.qual.length
    ∧ (((QualityTrimmer.process trimCfg0 readA40).1.base.length
          = (QualityTrimmer.process trimCfg0 readA40).1.qual.length)
        ∧ (QualityTrimmer.process trimCfg0 readA40).2 = true
        ∧ ((QualityTrimmer.endPos trimCfg0 readA40 ≤ QualityTrimmer.startPos trimCfg0 readA40
            ∨ QualityTrimmer.endPos trimCfg0 readA40
                - QualityTrimmer.startPos trimCfg0 readA40 < trimCfg0.min_length)
          → (QualityTrimmer.process trimCfg0 readA40).1.base = []
            ∧ (QualityTrimmer.process trimCfg0 readA40).1.qual = [])) :=
  ⟨by decide, by decide, by decide,
   quality_trimmer_preserves_length trimCfg0 readA40 (by decide) (by decide) (by decide)⟩

/-- Claim C10: the minimum-quality predicate rejects every record whose
quality string is empty, for every threshold (including 0) and encoding, and
consequently no such record can pass any predicate chain that contains this
predicate anywhere. -/
theorem min_quality_empty_qual_rejected (min_quality : ℚ) (enc : Nat)
    (name base : List Nat) (ps1 ps2 : List (FqInfo → Bool)) :
    MinQualityPredicate.evaluate min_quality enc { name := name, base := base, qual := [] }
      = false
    ∧ passesPredicates (ps1 ++ MinQualityPredicate.evaluate min_quality enc :: ps2)
        { name := name, base := base, qual := [] } = false := by
  have he : MinQualityPredicate.evaluate min_quality enc
      { name := name, base := base, qual := [] } = false := by
    simp [MinQualityPredicate.evaluate]
  refine ⟨he, ?_⟩
  induction ps1 with
  | nil => simp [passesPredicates, he]
  | cons p l ih =>
    by_cases h : p { name := name, base := base, qual := [] } <;>
      simp [passesPredicates, h, ih]
